import Mathlib

/-!
Verification of the Meeting Notes & Action Item Agent
(examples/templates/meeting_notes_agent).

Shallow embedding of the agent's node functions (`nodes.py`), provider
registry (`config.py`) and the linear pipeline wiring (`agent.py`).
Python strings are modelled as Lean `String`/`List Char`, Python `None`
as `Option`, raised exceptions as `Except`, and the Slack / LLM
collaborators as explicit `Except`-valued oracles.
-/

namespace MeetingNotes

/-! ## Python string primitives -/

/-- Python whitespace characters recognised by `str.strip` (ASCII subset):
space, tab, newline, carriage return, vertical tab, form feed. -/
def pyWs (c : Char) : Bool :=
  c.toNat = 32 || c.toNat = 9 || c.toNat = 10 || c.toNat = 13 ||
  c.toNat = 11 || c.toNat = 12

/-- `str.strip()` on a character list: drop leading and trailing whitespace. -/
def pyStrip (cs : List Char) : List Char :=
  ((cs.dropWhile pyWs).reverse.dropWhile pyWs).reverse

/-- `str.strip()` on a `String`. -/
def pyStripS (s : String) : String := ⟨pyStrip s.data⟩

/-- ASCII `str.lower()`. -/
def pyLower (c : Char) : Char :=
  if 'A' ≤ c ∧ c ≤ 'Z' then Char.ofNat (c.toNat + 32) else c

def pyLowerS (s : String) : String := ⟨s.data.map pyLower⟩

/-- ASCII `str.upper()`. -/
def pyUpper (c : Char) : Char :=
  if 'a' ≤ c ∧ c ≤ 'z' then Char.ofNat (c.toNat - 32) else c

def pyUpperS (s : String) : String := ⟨s.data.map pyUpper⟩

/-- Python `a or b` for a possibly absent string `a`
(`None` and `""` are falsy). -/
def pyOrStr (a : Option String) (b : String) : String :=
  match a with
  | none => b
  | some s => if s = "" then b else s

/-- Python truthiness of an optional string. -/
def pyTruthyOpt (a : Option String) : Bool :=
  match a with
  | none => false
  | some s => s ≠ ""

/-! ## config.py: provider → model registry -/

/-- `MODEL_REGISTRY` from `config.py`. -/
def MODEL_REGISTRY : List (String × String) :=
  [("anthropic", "claude-sonnet-4-5-20250929"),
   ("claude",    "claude-sonnet-4-5-20250929"),
   ("gemini",    "gemini/gemini-1.5-pro-latest"),
   ("google",    "gemini/gemini-1.5-pro-latest")]

def registryKeys : List String := MODEL_REGISTRY.map Prod.fst

/-! ## validate_input (nodes.py) -/

/-- The raw invocation input read from the memory bag by `validate_input`
(absent keys are `none`). -/
structure PipelineInput where
  transcript : Option String
  meeting_name : Option String
  meeting_date : Option String
  slack_channel : Option String
  llm_provider : Option String

/-- The two `raise ValueError` sites of `validate_input`: empty transcript,
and trimmed transcript shorter than 50 characters. -/
inductive InputError where
  | emptyInput
  | tooShort (n : Nat)
deriving DecidableEq

/-- The `validation_error` message stored in memory before each raise. -/
def validationMessage : InputError → String
  | .emptyInput => "transcript field is required and cannot be empty"
  | .tooShort n =>
      "Transcript is too short (" ++ toString n ++
      " chars). Minimum 50 characters required."

/-- State written back to memory by a successful `validate_input`. -/
structure NormalizedState where
  validated_transcript : String
  meeting_name : String
  meeting_date : String
  slack_channel : Option String
  llm_provider : String

/-- Provider resolution inside `validate_input`:
`(llm_provider or "anthropic").lower()`, then fall back to `"anthropic"`
when the alias is not a registry key. -/
def resolveProvider (llm_provider : Option String) : String :=
  if registryKeys.contains (pyLowerS (pyOrStr llm_provider "anthropic"))
  then pyLowerS (pyOrStr llm_provider "anthropic")
  else "anthropic"

/-- `validate_input` from `nodes.py`: reject empty and too-short
transcripts, default the metadata fields, resolve the provider. -/
def validate_input (inp : PipelineInput) : Except InputError NormalizedState :=
  let transcript := inp.transcript.getD ""
  if transcript = "" ∨ pyStripS transcript = "" then
    .error .emptyInput
  else
    let t := pyStripS transcript
    if t.length < 50 then
      .error (.tooShort t.length)
    else
      .ok { validated_transcript := t
            meeting_name := pyOrStr inp.meeting_name "Untitled Meeting"
            meeting_date := pyOrStr inp.meeting_date "Unknown Date"
            slack_channel := inp.slack_channel
            llm_provider := resolveProvider inp.llm_provider }

/-! ## _extract_json (nodes.py): fence stripping

`re.sub(r"```(?:json)?\s*", "", raw)` scans left to right; at each
occurrence of three backticks it also consumes an optional literal
`json` and the following whitespace run.  Then `.replace("```", "")`
removes any remaining triple backticks, and `.strip()` trims. -/

/-- The scanning pass of `re.sub(r"```(?:json)?\s*", "", ·)`.
A match consumes three backticks, an optional literal `json`, and the
following whitespace run; the whitespace run is consumed character by
character in "skip" mode (the Boolean flag), which is exactly the
greedy `\s*`.  Matches are found leftmost-first and do not overlap,
matching `re.sub`. -/
def removeFencesAux : Bool → List Char → List Char
  | _, [] => []
  | _, '\x60' :: '\x60' :: '\x60' :: 'j' :: 's' :: 'o' :: 'n' :: rest =>
      removeFencesAux true rest
  | _, '\x60' :: '\x60' :: '\x60' :: rest => removeFencesAux true rest
  | skip, c :: rest =>
      if skip && pyWs c then removeFencesAux true rest
      else c :: removeFencesAux false rest

/-- `re.sub(r"```(?:json)?\s*", "", ·)`. -/
def removeFences (cs : List Char) : List Char := removeFencesAux false cs

/-- `.replace("```", "")`: remove triple backticks, left to right,
non-overlapping. -/
def replaceTicks : List Char → List Char
  | '\x60' :: '\x60' :: '\x60' :: rest => replaceTicks rest
  | c :: rest => c :: replaceTicks rest
  | [] => []

/-- The `clean` string of `_extract_json`:
`re.sub(r"```(?:json)?\s*", "", raw).replace("```", "").strip()`. -/
def cleanOf (raw : String) : List Char :=
  pyStrip (replaceTicks (removeFences raw.data))

/-! ## JSON values and `json.loads` -/

/-- JSON values as produced by `json.loads`.  Numbers keep their source
lexeme; objects keep their members in source order (lookup is
last-occurrence-wins, mirroring `dict` construction). -/
inductive Json where
  | null
  | jbool (b : Bool)
  | jnum (lexeme : String)
  | jstr (s : String)
  | jarr (elems : List Json)
  | jobj (members : List (String × Json))

/-- JSON-document whitespace (`json.loads`): space, tab, newline, CR. -/
def jsonWs (c : Char) : Bool :=
  c = ' ' || c = '\t' || c = '\n' || c = '\r'

def skipWs (cs : List Char) : List Char := cs.dropWhile jsonWs

def hexVal (c : Char) : Option Nat :=
  if '0' ≤ c ∧ c ≤ '9' then some (c.toNat - '0'.toNat)
  else if 'a' ≤ c ∧ c ≤ 'f' then some (c.toNat - 'a'.toNat + 10)
  else if 'A' ≤ c ∧ c ≤ 'F' then some (c.toNat - 'A'.toNat + 10)
  else none

def escChar (c : Char) : Option Char :=
  if c = '"' then some '"'
  else if c = '\\' then some '\\'
  else if c = '/' then some '/'
  else if c = 'b' then some (Char.ofNat 8)
  else if c = 'f' then some (Char.ofNat 12)
  else if c = 'n' then some '\n'
  else if c = 'r' then some '\r'
  else if c = 't' then some '\t'
  else none

/-- Parse the body of a JSON string (opening quote already consumed).
Strict mode: raw control characters below U+0020 are rejected. -/
def parseStrAux (acc : List Char) : List Char → Option (String × List Char)
  | [] => none
  | '"' :: rest => some (⟨acc.reverse⟩, rest)
  | '\\' :: rest =>
    match rest with
    | [] => none
    | 'u' :: rest2 =>
      match rest2 with
      | h1 :: h2 :: h3 :: h4 :: rest3 =>
        match hexVal h1, hexVal h2, hexVal h3, hexVal h4 with
        | some a, some b, some c, some d =>
            parseStrAux (Char.ofNat (((a * 16 + b) * 16 + c) * 16 + d) :: acc) rest3
        | _, _, _, _ => none
      | _ => none
    | e :: rest2 =>
      match escChar e with
      | some c => parseStrAux (c :: acc) rest2
      | none => none
  | c :: rest =>
    if c.toNat < 32 then none else parseStrAux (c :: acc) rest

def isDigit' (c : Char) : Bool := '0' ≤ c && c ≤ '9'

/-- Parse a JSON number lexeme per the JSON grammar
(`-?(0|[1-9][0-9]*)(\.[0-9]+)?([eE][+-]?[0-9]+)?`), returning the
matched lexeme and the remaining input. -/
def parseNumber (cs : List Char) : Option (String × List Char) :=
  let (neg, cs1) :=
    match cs with
    | '-' :: rest => (['-'], rest)
    | _ => (([] : List Char), cs)
  match cs1 with
  | [] => none
  | d :: rest =>
    if d = '0' then
      let (intPart, cs2) := (['0'], rest)
      numTail neg intPart cs2
    else if isDigit' d then
      let more := rest.takeWhile isDigit'
      numTail neg (d :: more) (rest.dropWhile isDigit')
    else none
where
  numTail (neg intPart : List Char) (cs2 : List Char) : Option (String × List Char) :=
    let (fracPart, cs3) :=
      match cs2 with
      | '.' :: d2 :: rest2 =>
        if isDigit' d2 then
          ('.' :: d2 :: rest2.takeWhile isDigit', rest2.dropWhile isDigit')
        else (([] : List Char), cs2)
      | _ => (([] : List Char), cs2)
    let (expPart, cs4) :=
      match cs3 with
      | e :: rest3 =>
        if e = 'e' ∨ e = 'E' then
          let (sign, rest4) :=
            match rest3 with
            | '+' :: r => (['+'], r)
            | '-' :: r => (['-'], r)
            | _ => (([] : List Char), rest3)
          match rest4 with
          | d3 :: _ =>
            if isDigit' d3 then
              (e :: (sign ++ rest4.takeWhile isDigit'), rest4.dropWhile isDigit')
            else (([] : List Char), cs3)
          | [] => (([] : List Char), cs3)
        else (([] : List Char), cs3)
      | [] => (([] : List Char), cs3)
    some (⟨neg ++ intPart ++ fracPart ++ expPart⟩, cs4)

mutual

/-- Fuelled recursive-descent parser for one JSON value (leading
whitespace already skipped). -/
def parseValue : Nat → List Char → Option (Json × List Char)
  | 0, _ => none
  | Nat.succ fuel, cs =>
    match cs with
    | '\x7b' :: rest =>
      (match skipWs rest with
       | '\x7d' :: rest2 => some (.jobj [], rest2)
       | r =>
         match parseMembers fuel r with
         | some (kvs, rest2) => some (.jobj kvs, rest2)
         | none => none)
    | '[' :: rest =>
      (match skipWs rest with
       | ']' :: rest2 => some (.jarr [], rest2)
       | r =>
         match parseItems fuel r with
         | some (xs, rest2) => some (.jarr xs, rest2)
         | none => none)
    | '"' :: rest =>
      (match parseStrAux [] rest with
       | some (s, rest2) => some (.jstr s, rest2)
       | none => none)
    | 't' :: 'r' :: 'u' :: 'e' :: rest => some (.jbool true, rest)
    | 'f' :: 'a' :: 'l' :: 's' :: 'e' :: rest => some (.jbool false, rest)
    | 'n' :: 'u' :: 'l' :: 'l' :: rest => some (.null, rest)
    | 'N' :: 'a' :: 'N' :: rest => some (.jnum "NaN", rest)
    | 'I' :: 'n' :: 'f' :: 'i' :: 'n' :: 'i' :: 't' :: 'y' :: rest =>
        some (.jnum "Infinity", rest)
    | '-' :: 'I' :: 'n' :: 'f' :: 'i' :: 'n' :: 'i' :: 't' :: 'y' :: rest =>
        some (.jnum "-Infinity", rest)
    | _ =>
      (match parseNumber cs with
       | some (s, rest) => some (.jnum s, rest)
       | none => none)

/-- Members of a JSON object after `{` (at least one member). -/
def parseMembers : Nat → List Char → Option (List (String × Json) × List Char)
  | 0, _ => none
  | Nat.succ fuel, cs =>
    match cs with
    | '"' :: rest =>
      (match parseStrAux [] rest with
       | none => none
       | some (k, r1) =>
         match skipWs r1 with
         | ':' :: r2 =>
           (match parseValue fuel (skipWs r2) with
            | none => none
            | some (v, r3) =>
              match skipWs r3 with
              | ',' :: r4 =>
                (match parseMembers fuel (skipWs r4) with
                 | some (kvs, r5) => some ((k, v) :: kvs, r5)
                 | none => none)
              | '\x7d' :: r4 => some ([(k, v)], r4)
              | _ => none)
         | _ => none)
    | _ => none

/-- Items of a JSON array after `[` (at least one item). -/
def parseItems : Nat → List Char → Option (List Json × List Char)
  | 0, _ => none
  | Nat.succ fuel, cs =>
    match parseValue fuel cs with
    | none => none
    | some (v, r1) =>
      match skipWs r1 with
      | ',' :: r2 =>
        (match parseItems fuel (skipWs r2) with
         | some (xs, r3) => some (v :: xs, r3)
         | none => none)
      | ']' :: r2 => some ([v], r2)
      | _ => none

end

/-- `json.loads`: parse one value, then require only trailing
whitespace. -/
def jsonLoads (cs : List Char) : Option Json :=
  match parseValue (2 * cs.length + 2) (skipWs cs) with
  | some (v, rest) => if skipWs rest = [] then some v else none
  | none => none

/-! ## _extract_json -/

/-- The two failure modes of `_extract_json`:
`ValueError("No JSON object found ...")` when a brace is missing, and
`json.JSONDecodeError` when the brace-to-brace slice is not valid JSON. -/
inductive ExtractErr where
  | noJsonFound
  | malformedJson
deriving DecidableEq

/-- Index of the first occurrence of `c` (`str.find`). -/
def firstIdxOf (c : Char) (l : List Char) : Option Nat :=
  l.findIdx? (· = c)

/-- Index of the last occurrence of `c` (`str.rfind`). -/
def lastIdxOf (c : Char) (l : List Char) : Option Nat :=
  (l.reverse.findIdx? (· = c)).map (fun i => l.length - 1 - i)

/-- `_extract_json` from `nodes.py`: strip fences, slice from the first
`{` to the last `}` and run `json.loads` on the slice. -/
def _extract_json (raw : String) : Except ExtractErr Json :=
  match firstIdxOf '\x7b' (cleanOf raw), lastIdxOf '\x7d' (cleanOf raw) with
  | some s, some e =>
    (match jsonLoads (((cleanOf raw).drop s).take (e + 1 - s)) with
     | some v => .ok v
     | none => .error .malformedJson)
  | _, _ => .error .noJsonFound

/-! ## Pydantic schemas (nodes.py) -/

/-- `ActionItem` (pydantic): `task`/`owner` required strings, `due`
defaults to `"TBD"`, `priority` defaults to `"medium"` and must match
`^(high|medium|low)$`. -/
structure ActionItem where
  task : String
  owner : String
  due : String
  priority : String
deriving DecidableEq

/-- `MeetingNotesOutput` (pydantic): required `summary`, optional lists
defaulting to empty, `slack_message_sent` defaulting to `False`. -/
structure MeetingNotesOutput where
  summary : String
  attendees : List String
  decisions : List String
  action_items : List ActionItem
  blockers : List String
  follow_ups : List String
  slack_message_sent : Bool
deriving DecidableEq

/-- Dict lookup on the parsed members (`json.loads` builds a `dict`, so
a repeated key keeps its last value). -/
def objGet (kvs : List (String × Json)) (k : String) : Option Json :=
  (kvs.reverse.find? (fun kv => kv.1 = k)).map (fun kv => kv.2)

/-- Sequence a validator over a list; fails iff any element fails
(pydantic reports an error when any item errors). -/
def mapExcept (f : α → Except String β) : List α → Except String (List β)
  | [] => .ok []
  | x :: xs =>
    match f x, mapExcept f xs with
    | .error e, _ => .error e
    | .ok _, .error e => .error e
    | .ok y, .ok ys => .ok (y :: ys)

/-- Validate one `action_items` element against `ActionItem`. -/
def validateActionItem (j : Json) : Except String ActionItem :=
  match j with
  | .jobj kvs =>
    (match objGet kvs "task" with
     | some (.jstr task) =>
       (match objGet kvs "owner" with
        | some (.jstr owner) =>
          (match objGet kvs "due" with
           | none => Except.ok "TBD"
           | some (.jstr d) => Except.ok d
           | some _ => Except.error "due: Input should be a valid string").bind
          (fun due =>
            (match objGet kvs "priority" with
             | none => Except.ok "medium"
             | some (.jstr p) =>
               if p = "high" ∨ p = "medium" ∨ p = "low" then Except.ok p
               else Except.error "priority: String should match pattern ^(high|medium|low)$"
             | some _ => Except.error "priority: Input should be a valid string").bind
            (fun priority => Except.ok ⟨task, owner, due, priority⟩))
        | some _ => .error "owner: Input should be a valid string"
        | none => .error "owner: Field required")
     | some _ => .error "task: Input should be a valid string"
     | none => .error "task: Field required")
  | _ => .error "action_items item: Input should be a valid dictionary"

/-- Validate an optional `list[str]` field (absent means `[]`). -/
def optStrList (kvs : List (String × Json)) (k : String) :
    Except String (List String) :=
  match objGet kvs k with
  | none => .ok []
  | some (.jarr xs) =>
    mapExcept (fun x =>
      match x with
      | .jstr s => Except.ok s
      | _ => Except.error (k ++ ": Input should be a valid string")) xs
  | some _ => .error (k ++ ": Input should be a valid list")

/-- `MeetingNotesOutput(**parsed)`: validate the extracted JSON object
against the schema, applying the declared defaults. -/
def validateNotes (j : Json) : Except String MeetingNotesOutput :=
  match j with
  | .jobj kvs =>
    (match objGet kvs "summary" with
     | some (.jstr s) => Except.ok s
     | some _ => Except.error "summary: Input should be a valid string"
     | none => Except.error "summary: Field required").bind
    (fun summary =>
      (optStrList kvs "attendees").bind (fun attendees =>
      (optStrList kvs "decisions").bind (fun decisions =>
      (match objGet kvs "action_items" with
       | none => Except.ok []
       | some (.jarr xs) => mapExcept validateActionItem xs
       | some _ => Except.error "action_items: Input should be a valid list").bind
      (fun action_items =>
      (optStrList kvs "blockers").bind (fun blockers =>
      (optStrList kvs "follow_ups").bind (fun follow_ups =>
      (match objGet kvs "slack_message_sent" with
       | none => Except.ok false
       | some (.jbool b) => Except.ok b
       | some _ => Except.error "slack_message_sent: Input should be a valid boolean").bind
      (fun slack_message_sent =>
        Except.ok ⟨summary, attendees, decisions, action_items,
                   blockers, follow_ups, slack_message_sent⟩)))))))
  | _ => .error "Input should be a valid dictionary"

/-- Message of the `ValueError` raised by `_extract_json` when no brace
is present (`raw[:200]` is the truncated snippet), and a stand-in for
the `json.JSONDecodeError` text otherwise. -/
def extractErrMsg (raw : String) : ExtractErr → String
  | .noJsonFound => "No JSON object found in LLM response. Raw: " ++ raw.take 200
  | .malformedJson => "Expecting value"

/-- `parse_and_validate_output` from `nodes.py`: extract the JSON, build
`MeetingNotesOutput`, and wrap any failure into the
`"Output parse/validation failed: ..."` error stored as `parse_error`. -/
def parse_and_validate_output (raw : String) : Except String MeetingNotesOutput :=
  match _extract_json raw with
  | .error e => .error ("Output parse/validation failed: " ++ extractErrMsg raw e)
  | .ok j =>
    match validateNotes j with
    | .error m => .error ("Output parse/validation failed: " ++ m)
    | .ok notes => .ok notes

/-! ## _build_slack_blocks (nodes.py) -/

/-- One Slack Block Kit block, keeping the `type` discriminator and the
rendered text of the source dictionaries. -/
inductive Block where
  | header (text : String)
  | sec (text : String)
  | divider
  | context (text : String)
deriving DecidableEq

/-- The `priority_emoji` mapping with its `.get(priority, "⚪")`
default. -/
def priority_emoji (p : String) : String :=
  if p = "high" then "🔴"
  else if p = "medium" then "🟡"
  else if p = "low" then "🟢"
  else "⚪"

/-- The per-item section block of the action-items loop. -/
def actionItemBlock (item : ActionItem) : Block :=
  .sec (priority_emoji item.priority ++ " *" ++ item.task ++ "*\n   👤 " ++
        item.owner ++ "   📅 " ++ item.due ++ "   `" ++
        pyUpperS item.priority ++ "`")

/-- `_build_slack_blocks` from `nodes.py`. -/
def _build_slack_blocks (notes : MeetingNotesOutput)
    (meeting_name meeting_date : String) : List Block :=
  let meta_parts : List String :=
    (if meeting_date ≠ "" ∧ meeting_date ≠ "Unknown Date" then
       ["📅 *" ++ meeting_date ++ "*"] else [])
    ++ (if notes.attendees ≠ [] then
          ["👥 " ++ String.intercalate ", " notes.attendees] else [])
  [Block.header ("🐝 " ++ meeting_name)]
  ++ (if meta_parts ≠ [] then
        [Block.sec (String.intercalate "  |  " meta_parts)] else [])
  ++ [Block.divider, Block.sec ("*📋 Summary*\n" ++ notes.summary)]
  ++ (if notes.decisions ≠ [] then
        [Block.divider,
         Block.sec ("*✅ Key Decisions*\n" ++
           String.intercalate "\n" (notes.decisions.map (fun d => "• " ++ d)))]
      else [])
  ++ (if notes.action_items ≠ [] then
        [Block.divider, Block.sec "*⚡ Action Items*"]
        ++ notes.action_items.map actionItemBlock
      else [])
  ++ (if notes.blockers ≠ [] then
        [Block.divider,
         Block.sec ("*🚧 Blockers*\n" ++
           String.intercalate "\n" (notes.blockers.map (fun b => "⚠️ " ++ b)))]
      else [])
  ++ (if notes.follow_ups ≠ [] then
        [Block.divider,
         Block.sec ("*🔁 Follow-ups*\n" ++
           String.intercalate "\n" (notes.follow_ups.map (fun f => "→ " ++ f)))]
      else [])
  ++ [Block.divider,
      Block.context "_Generated by Aden Hive Meeting Notes Agent · https://adenhq.com_"]

/-! ## post_to_slack, compile_final_output, handle_error (nodes.py) -/

/-- The `slack_result` record stored in memory by `post_to_slack`. -/
structure SlackResult where
  sent : Bool
  reason : Option String
  result : Option String
deriving DecidableEq

/-- `post_to_slack`: skip when the channel is falsy, otherwise call the
messaging tool (modelled as an `Except`-valued oracle) and absorb any
raised error.  The second component records whether the tool was
invoked. -/
def post_to_slack (slack_channel : Option String)
    (toolCall : Except String String) : SlackResult × Bool :=
  if pyTruthyOpt slack_channel = false then
    ({ sent := false, reason := some "no_channel", result := none }, false)
  else
    match toolCall with
    | .ok r => ({ sent := true, reason := none, result := some r }, true)
    | .error exc => ({ sent := false, reason := some exc, result := none }, true)

/-- `compile_final_output`: `{**notes_raw, "slack_message_sent":
slack_result.get("sent", False)}` — a fresh copy of the report with only
the delivery flag replaced. -/
def compile_final_output (notes : MeetingNotesOutput)
    (slack_result : SlackResult) : MeetingNotesOutput :=
  { notes with slack_message_sent := slack_result.sent }

/-- The fixed-shape error object emitted by `handle_error`. -/
structure ErrorOutput where
  error : Bool
  error_message : String
  summary : String
  attendees : List String
  decisions : List String
  action_items : List ActionItem
  blockers : List String
  follow_ups : List String
  slack_message_sent : Bool
deriving DecidableEq

/-- `handle_error`: `validation_error or parse_error or
"Unknown error occurred"` with the fixed empty report shape. -/
def handle_error (validation_error parse_error : Option String) : ErrorOutput :=
  { error := true
    error_message := pyOrStr validation_error (pyOrStr parse_error "Unknown error occurred")
    summary := ""
    attendees := []
    decisions := []
    action_items := []
    blockers := []
    follow_ups := []
    slack_message_sent := false }

/-! ## The pipeline (agent.py edge wiring) -/

/-- Terminal node outcome: `compile-final-output` or `handle-error`. -/
inductive FinalResult where
  | success (out : MeetingNotesOutput)
  | failure (out : ErrorOutput)
deriving DecidableEq

/-- The linear graph of `agent.py`:
`validate-input → extract-meeting-data → parse-and-validate →
format-slack-message → post-to-slack → compile-final-output`, with
`ON_FAILURE` edges from the first three nodes into `handle-error` and an
`ALWAYS` edge from `post-to-slack` into `compile-final-output`.
`llm` is the model-inference collaborator, `tool` the Slack tool call;
the returned `Nat` counts LLM extraction calls. -/
def runPipeline (inp : PipelineInput) (llm : Except String String)
    (tool : Except String String) : FinalResult × Nat :=
  match validate_input inp with
  | .error e => (.failure (handle_error (some (validationMessage e)) none), 0)
  | .ok st =>
    match llm with
    | .error _ => (.failure (handle_error none none), 1)
    | .ok raw =>
      match parse_and_validate_output raw with
      | .error msg => (.failure (handle_error none (some msg)), 1)
      | .ok notes =>
        (.success (compile_final_output notes (post_to_slack st.slack_channel tool).1), 1)

/-! ## Fence-wrapping idempotence machinery (claim C3) -/



/-- The trailing closing fence `"\n```"` as a character list. -/
def nl3 : List Char := ['\n', '\x60', '\x60', '\x60']

theorem pyWs_ne_tick {c : Char} (h : pyWs c = true) : c ≠ '\x60' := by
  intro he; subst he; simp [pyWs] at h

theorem rfAux_cons_generic (skip : Bool) (c : Char) (rest : List Char)
    (h : ¬(c = '\x60' ∧ rest.take 2 = ['\x60', '\x60'])) :
    removeFencesAux skip (c :: rest) =
      if skip && pyWs c then removeFencesAux true rest
      else c :: removeFencesAux false rest := by
  rw [removeFencesAux.eq_def]
  split
  all_goals simp_all [List.take]

theorem rfAux_fence (skip : Bool) (rest : List Char) :
    removeFencesAux skip ('\x60' :: '\x60' :: '\x60' :: rest) =
      removeFencesAux true
        (if rest.take 4 = ['j', 's', 'o', 'n'] then rest.drop 4 else rest) := by
  rcases rest with _ | ⟨a, _ | ⟨b, _ | ⟨d, _ | ⟨e, r⟩⟩⟩⟩
  · rfl
  · rw [removeFencesAux.eq_def]
    split
    all_goals try simp_all [List.take]
    next sidecond heq =>
      obtain ⟨h1, h2⟩ := heq
      exact absurd h2.symm (sidecond _ h1.symm)
  · rw [removeFencesAux.eq_def]
    split
    all_goals try simp_all [List.take]
    next sidecond heq =>
      obtain ⟨h1, h2⟩ := heq
      exact absurd h2.symm (sidecond _ h1.symm)
  · rw [removeFencesAux.eq_def]
    split
    all_goals try simp_all [List.take]
    next sidecond heq =>
      obtain ⟨h1, h2⟩ := heq
      exact absurd h2.symm (sidecond _ h1.symm)
  · rw [removeFencesAux.eq_def]
    split
    all_goals try simp_all [List.take]
    · next jside heq =>
        subst heq
        rw [if_neg]
        intro hx
        exact jside r (by rw [hx.1, hx.2.1, hx.2.2.1, hx.2.2.2])
    · next sidecond heq =>
        obtain ⟨h1, h2⟩ := heq
        exact absurd h2.symm (sidecond _ h1.symm)

/-- Appending the closing fence `"\n```"` to the input changes the
scanning pass's output by at most a trailing newline. -/
theorem rfAux_append_nl3 (skip : Bool) (s : List Char) :
    removeFencesAux skip (s ++ nl3) = removeFencesAux skip s ++ ['\n'] ∨
    removeFencesAux skip (s ++ nl3) = removeFencesAux skip s := by
  induction skip, s using removeFencesAux.induct
  case case1 skip =>
    cases skip
    · exact Or.inl rfl
    · exact Or.inr rfl
  case case2 skip rest ih =>
    exact ih
  case case3 skip rest jside ih =>
    have hL : removeFencesAux skip (('\x60' :: '\x60' :: '\x60' :: rest) ++ nl3) =
        removeFencesAux true (rest ++ nl3) := by
      have : ('\x60' :: '\x60' :: '\x60' :: rest) ++ nl3 = '\x60' :: '\x60' :: '\x60' :: (rest ++ nl3) := rfl
      rw [this, rfAux_fence, if_neg]
      rcases rest with _ | ⟨a, _ | ⟨b, _ | ⟨d, _ | ⟨e, r⟩⟩⟩⟩
      · simp [nl3]
      · simp [nl3, List.take]
      · simp [nl3, List.take]
      · simp [nl3, List.take]
      · intro hx
        simp [List.take] at hx
        exact jside r (by rw [hx.1, hx.2.1, hx.2.2.1, hx.2.2.2])
    have hR : removeFencesAux skip ('\x60' :: '\x60' :: '\x60' :: rest) =
        removeFencesAux true rest := by
      rw [rfAux_fence, if_neg]
      intro hx
      rcases rest with _ | ⟨a, _ | ⟨b, _ | ⟨d, _ | ⟨e, r⟩⟩⟩⟩
      · simp [List.take] at hx
      · simp [List.take] at hx
      · simp [List.take] at hx
      · simp [List.take] at hx
      · simp [List.take] at hx
        exact jside r (by rw [hx.1, hx.2.1, hx.2.2.1, hx.2.2.2])
    rw [hL, hR]
    exact ih
  case case4 skip c rest js ps h ih =>
    have hws : pyWs c = true := by
      rcases Bool.and_eq_true _ _ |>.mp h with ⟨_, hw⟩
      exact hw
    have hnt : ¬(c = '\x60' ∧ (rest ++ nl3).take 2 = ['\x60', '\x60']) := by
      intro hx
      exact pyWs_ne_tick hws hx.1
    have hnt2 : ¬(c = '\x60' ∧ rest.take 2 = ['\x60', '\x60']) := by
      intro hx
      exact pyWs_ne_tick hws hx.1
    have hL : removeFencesAux skip ((c :: rest) ++ nl3) =
        removeFencesAux true (rest ++ nl3) := by
      have : (c :: rest) ++ nl3 = c :: (rest ++ nl3) := rfl
      rw [this, rfAux_cons_generic _ _ _ hnt, if_pos h]
    have hR : removeFencesAux skip (c :: rest) =
        removeFencesAux true rest := by
      rw [rfAux_cons_generic _ _ _ hnt2, if_pos h]
    rw [hL, hR]
    exact ih
  case case5 skip c rest js ps h ih =>
    have hnt2 : ¬(c = '\x60' ∧ rest.take 2 = ['\x60', '\x60']) := by
      intro ⟨hc, ht⟩
      rcases rest with _ | ⟨a, _ | ⟨b, r⟩⟩
      · simp [List.take] at ht
      · simp [List.take] at ht
      · simp [List.take] at ht
        exact ps r hc (by rw [ht.1, ht.2])
    have hnt : ¬(c = '\x60' ∧ (rest ++ nl3).take 2 = ['\x60', '\x60']) := by
      intro ⟨hc, ht⟩
      rcases rest with _ | ⟨a, _ | ⟨b, r⟩⟩
      · simp [nl3, List.take] at ht
      · simp [nl3, List.take] at ht
      · simp [List.take] at ht
        exact ps r hc (by rw [ht.1, ht.2])
    have hL : removeFencesAux skip ((c :: rest) ++ nl3) =
        c :: removeFencesAux false (rest ++ nl3) := by
      have : (c :: rest) ++ nl3 = c :: (rest ++ nl3) := rfl
      rw [this, rfAux_cons_generic _ _ _ hnt, if_neg (by simp_all)]
    have hR : removeFencesAux skip (c :: rest) =
        c :: removeFencesAux false rest := by
      rw [rfAux_cons_generic _ _ _ hnt2, if_neg (by simp_all)]
    rw [hL, hR]
    rcases ih with h1 | h1
    · left
      rw [h1]
      rfl
    · right
      rw [h1]



/-- When the head is not whitespace, the skip flag is irrelevant. -/
theorem rfAux_skip_irrel (c : Char) (rest : List Char) (h : pyWs c = false) :
    removeFencesAux true (c :: rest) = removeFencesAux false (c :: rest) := by
  by_cases hp : c = '\x60' ∧ rest.take 2 = ['\x60', '\x60']
  · obtain ⟨rfl, ht⟩ := hp
    rcases rest with _ | ⟨a, _ | ⟨b, r⟩⟩
    · simp [List.take] at ht
    · simp [List.take] at ht
    · simp [List.take] at ht
      obtain ⟨rfl, rfl⟩ := ht
      rw [rfAux_fence, rfAux_fence]
  · rw [rfAux_cons_generic _ _ _ hp, rfAux_cons_generic _ _ _ hp, h]
    simp

/-- Skip mode consumes exactly the leading whitespace run. -/
theorem rfAux_true_eq (j : List Char) :
    removeFencesAux true j = removeFencesAux false (j.dropWhile pyWs) := by
  induction j with
  | nil => rfl
  | cons c rest ih =>
    by_cases hw : pyWs c
    · have hnt : ¬(c = '\x60' ∧ rest.take 2 = ['\x60', '\x60']) := by
        intro hx
        exact pyWs_ne_tick hw hx.1
      rw [rfAux_cons_generic _ _ _ hnt, List.dropWhile_cons_of_pos hw]
      simp [hw, ih]
    · rw [List.dropWhile_cons_of_neg hw]
      exact rfAux_skip_irrel c rest (by simpa using hw)

/-- The scan emits the leading whitespace run unchanged. -/
theorem rfAux_false_split (j : List Char) :
    removeFencesAux false j =
      j.takeWhile pyWs ++ removeFencesAux false (j.dropWhile pyWs) := by
  induction j with
  | nil => rfl
  | cons c rest ih =>
    by_cases hw : pyWs c
    · have hnt : ¬(c = '\x60' ∧ rest.take 2 = ['\x60', '\x60']) := by
        intro hx
        exact pyWs_ne_tick hw hx.1
      rw [rfAux_cons_generic _ _ _ hnt, List.takeWhile_cons_of_pos hw,
          List.dropWhile_cons_of_pos hw]
      simp [ih]
    · rw [List.takeWhile_cons_of_neg hw, List.dropWhile_cons_of_neg hw]
      simp

theorem rt_cons_generic (c : Char) (rest : List Char)
    (h : ¬(c = '\x60' ∧ rest.take 2 = ['\x60', '\x60'])) :
    replaceTicks (c :: rest) = c :: replaceTicks rest := by
  rw [replaceTicks.eq_def]
  split
  all_goals simp_all [List.take]

/-- `replaceTicks` commutes with appending a single non-backtick. -/
theorem replaceTicks_append_single (x : Char) (hx : x ≠ '\x60') :
    ∀ a : List Char, replaceTicks (a ++ [x]) = replaceTicks a ++ [x] := by
  intro a
  induction a using replaceTicks.induct
  case case1 rest ih =>
    have : ('\x60' :: '\x60' :: '\x60' :: rest) ++ [x] = '\x60' :: '\x60' :: '\x60' :: (rest ++ [x]) := rfl
    rw [this]
    show replaceTicks (rest ++ [x]) = replaceTicks rest ++ [x]
    exact ih
  case case2 c rest ps ih =>
    have hnt2 : ¬(c = '\x60' ∧ rest.take 2 = ['\x60', '\x60']) := by
      intro ⟨hc, ht⟩
      rcases rest with _ | ⟨a, _ | ⟨b, r⟩⟩
      · simp [List.take] at ht
      · simp [List.take] at ht
      · simp [List.take] at ht
        exact ps r hc (by rw [ht.1, ht.2])
    have hnt : ¬(c = '\x60' ∧ (rest ++ [x]).take 2 = ['\x60', '\x60']) := by
      intro ⟨hc, ht⟩
      rcases rest with _ | ⟨a, _ | ⟨b, r⟩⟩
      · simp [List.take] at ht
      · simp [List.take] at ht
        exact hx ht.2
      · simp [List.take] at ht
        exact ps r hc (by rw [ht.1, ht.2])
    have : (c :: rest) ++ [x] = c :: (rest ++ [x]) := rfl
    rw [this, rt_cons_generic _ _ hnt, rt_cons_generic _ _ hnt2, ih]
    rfl
  case case3 =>
    have hnt : ¬(x = '\x60' ∧ ([] : List Char).take 2 = ['\x60', '\x60']) := by
      intro hx2
      exact hx hx2.1
    show replaceTicks ([x]) = [x]
    rw [rt_cons_generic _ _ hnt]
    rfl

/-- `replaceTicks` leaves an all-whitespace prefix in place. -/
theorem replaceTicks_ws_prefix (w X : List Char) (hw : ∀ c ∈ w, pyWs c = true) :
    replaceTicks (w ++ X) = w ++ replaceTicks X := by
  induction w with
  | nil => rfl
  | cons c rest ih =>
    have hc : pyWs c = true := hw c (List.mem_cons_self c rest)
    have hnt : ¬(c = '\x60' ∧ (rest ++ X).take 2 = ['\x60', '\x60']) := by
      intro hx
      exact pyWs_ne_tick hc hx.1
    have : (c :: rest) ++ X = c :: (rest ++ X) := rfl
    rw [this, rt_cons_generic _ _ hnt, ih (fun a ha => hw a (List.mem_cons_of_mem c ha))]
    rfl

/-- `pyStrip` of an all-whitespace list is empty. -/
theorem pyStrip_all_ws (w : List Char) (hw : ∀ c ∈ w, pyWs c = true) :
    pyStrip w = [] := by
  unfold pyStrip
  rw [List.dropWhile_eq_nil_iff.mpr hw]
  rfl

/-- `pyStrip` absorbs a trailing newline. -/
theorem pyStrip_append_newline (a : List Char) :
    pyStrip (a ++ ['\n']) = pyStrip a := by
  unfold pyStrip
  rw [List.dropWhile_append]
  by_cases he : (a.dropWhile pyWs).isEmpty
  · rw [if_pos he]
    rw [List.isEmpty_iff] at he
    rw [he]
    rfl
  · rw [if_neg he]
    rw [List.reverse_append]
    have : ['\n'].reverse ++ (a.dropWhile pyWs).reverse =
        '\n' :: (a.dropWhile pyWs).reverse := rfl
    rw [this, List.dropWhile_cons_of_pos (by decide : pyWs '\n' = true)]

/-- `pyStrip` absorbs an all-whitespace prefix. -/
theorem pyStrip_ws_prefix (w Y : List Char) (hw : ∀ c ∈ w, pyWs c = true) :
    pyStrip (w ++ Y) = pyStrip Y := by
  unfold pyStrip
  rw [List.dropWhile_append, List.dropWhile_eq_nil_iff.mpr hw]
  simp



theorem rfAux_json_fence_step (rest : List Char) :
    removeFencesAux false ('\x60' :: '\x60' :: '\x60' :: 'j' :: 's' :: 'o' :: 'n' :: rest) =
      removeFencesAux true rest := rfl

theorem rfAux_true_newline (rest : List Char) :
    removeFencesAux true ('\n' :: rest) = removeFencesAux true rest := rfl

/-- Fence-wrapping a text changes nothing about the cleaned string:
`clean("```json\n" + j + "\n```") = clean(j)`. -/
theorem cleanOf_fence_wrap (j : String) :
    cleanOf ("```json\n" ++ j ++ "\n```") = cleanOf j := by
  unfold cleanOf removeFences
  have hdata : ("```json\n" ++ j ++ "\n```").data =
      '\x60' :: '\x60' :: '\x60' :: 'j' :: 's' :: 'o' :: 'n' :: '\n' :: (j.data ++ nl3) := by
    rw [String.data_append, String.data_append]
    rfl
  rw [hdata, rfAux_json_fence_step, rfAux_true_newline, rfAux_true_eq,
      List.dropWhile_append]
  by_cases he : (j.data.dropWhile pyWs).isEmpty
  · rw [if_pos he]
    rw [List.isEmpty_iff] at he
    have hall : ∀ c ∈ j.data, pyWs c = true := List.dropWhile_eq_nil_iff.mp he
    have h1 : List.dropWhile pyWs nl3 = ['\x60', '\x60', '\x60'] := rfl
    rw [h1]
    have h2 : removeFencesAux false ['\x60', '\x60', '\x60'] = [] := rfl
    rw [h2]
    have h3 : removeFencesAux false j.data = j.data.takeWhile pyWs := by
      rw [rfAux_false_split, he]
      simp [show removeFencesAux false [] = [] from rfl]
    rw [h3]
    have htw : j.data.takeWhile pyWs = j.data := by
      have := List.takeWhile_append_dropWhile (p := pyWs) (l := j.data)
      rw [he] at this
      simpa using this
    rw [htw]
    have h4 : replaceTicks j.data = j.data := by
      have := replaceTicks_ws_prefix j.data [] hall
      simpa [show replaceTicks [] = [] from rfl] using this
    rw [h4]
    rw [pyStrip_all_ws j.data hall]
    rfl
  · rw [if_neg he]
    have hsplit : removeFencesAux false j.data =
        j.data.takeWhile pyWs ++ removeFencesAux false (j.data.dropWhile pyWs) :=
      rfAux_false_split j.data
    have hwtake : ∀ c ∈ j.data.takeWhile pyWs, pyWs c = true :=
      fun c hc => List.mem_takeWhile_imp hc
    rcases rfAux_append_nl3 false (j.data.dropWhile pyWs) with h1 | h1
    · rw [h1, replaceTicks_append_single '\n' (by decide), pyStrip_append_newline,
          hsplit, replaceTicks_ws_prefix _ _ hwtake, pyStrip_ws_prefix _ _ hwtake]
    · rw [h1, hsplit, replaceTicks_ws_prefix _ _ hwtake, pyStrip_ws_prefix _ _ hwtake]

/-- Wrapping in a JSON code fence does not change extraction at all. -/
theorem extract_json_fence_wrap_eq (raw : String) :
    _extract_json ("```json\n" ++ raw ++ "\n```") = _extract_json raw := by
  simp only [_extract_json, cleanOf_fence_wrap]


/-! ## Generic helper lemmas for the claim theorems -/

theorem except_bind_ok {α β : Type} (a : Except String α) (f : α → Except String β)
    (v : β) (h : a.bind f = .ok v) : ∃ w, a = .ok w ∧ f w = .ok v := by
  cases a with
  | error e => simp [Except.bind] at h
  | ok w => exact ⟨w, rfl, h⟩

theorem mapExcept_error_of_mem {α β : Type} (f : α → Except String β)
    (xs : List α) (x : α) (hx : x ∈ xs) (e : String) (hfe : f x = .error e) :
    ∃ e2, mapExcept f xs = .error e2 := by
  induction xs with
  | nil => cases hx
  | cons y ys ih =>
    rcases List.mem_cons.mp hx with rfl | hmem
    · unfold mapExcept
      rw [hfe]
      exact ⟨e, rfl⟩
    · unfold mapExcept
      cases hfy : f y with
      | error e3 => exact ⟨e3, rfl⟩
      | ok w =>
        obtain ⟨e2, he2⟩ := ih hmem
        rw [he2]
        exact ⟨e2, rfl⟩

theorem mapExcept_ok_length {α β : Type} (f : α → Except String β)
    (xs : List α) (ys : List β) (h : mapExcept f xs = .ok ys) :
    xs.length = ys.length := by
  induction xs generalizing ys with
  | nil =>
    unfold mapExcept at h
    cases h
    rfl
  | cons x xt ih =>
    unfold mapExcept at h
    cases hfx : f x with
    | error e => rw [hfx] at h; cases h
    | ok y =>
      rw [hfx] at h
      cases hrest : mapExcept f xt with
      | error e => rw [hrest] at h; cases h
      | ok yt =>
        rw [hrest] at h
        cases h
        simpa using ih yt hrest

theorem mapExcept_ok_get {α β : Type} (f : α → Except String β)
    (xs : List α) (ys : List β) (h : mapExcept f xs = .ok ys) :
    ∀ i x, xs.get? i = some x → ∃ y, ys.get? i = some y ∧ f x = .ok y := by
  induction xs generalizing ys with
  | nil =>
    intro i x hx
    simp at hx
  | cons z zt ih =>
    unfold mapExcept at h
    cases hfz : f z with
    | error e => rw [hfz] at h; cases h
    | ok y =>
      rw [hfz] at h
      cases hrest : mapExcept f zt with
      | error e => rw [hrest] at h; cases h
      | ok yt =>
        rw [hrest] at h
        cases h
        intro i x hx
        cases i with
        | zero =>
          cases hx
          exact ⟨y, rfl, hfz⟩
        | succ n =>
          exact ih yt hrest n x hx

/-! ## Claim theorems -/

/-- C9: `compile_final_output` preserves every report field and only
replaces `slack_message_sent` with the dispatcher's `sent` flag; as a
total function on validated inputs it always succeeds, and it builds a
new record rather than mutating its argument. -/
theorem c9_compile_frame (notes : MeetingNotesOutput) (slack_result : SlackResult) :
    (compile_final_output notes slack_result).summary = notes.summary ∧
    (compile_final_output notes slack_result).attendees = notes.attendees ∧
    (compile_final_output notes slack_result).decisions = notes.decisions ∧
    (compile_final_output notes slack_result).action_items = notes.action_items ∧
    (compile_final_output notes slack_result).blockers = notes.blockers ∧
    (compile_final_output notes slack_result).follow_ups = notes.follow_ups ∧
    (compile_final_output notes slack_result).slack_message_sent = slack_result.sent :=
  ⟨rfl, rfl, rfl, rfl, rfl, rfl, rfl⟩

/-- C2: every error routed to `handle_error` produces the fixed-shape
object with empty collections, `error = true` and
`slack_message_sent = false` (the spec's `delivery_sent`), and the
message is chosen with precedence validation error, then parse error,
then the generic fallback. -/
theorem c2_error_output_shape (validation_error parse_error : Option String) :
    (handle_error validation_error parse_error).error = true ∧
    (handle_error validation_error parse_error).summary = "" ∧
    (handle_error validation_error parse_error).attendees = [] ∧
    (handle_error validation_error parse_error).decisions = [] ∧
    (handle_error validation_error parse_error).action_items = [] ∧
    (handle_error validation_error parse_error).blockers = [] ∧
    (handle_error validation_error parse_error).follow_ups = [] ∧
    (handle_error validation_error parse_error).slack_message_sent = false ∧
    (∀ v, validation_error = some v → v ≠ "" →
      (handle_error validation_error parse_error).error_message = v) ∧
    (pyTruthyOpt validation_error = false → ∀ p, parse_error = some p → p ≠ "" →
      (handle_error validation_error parse_error).error_message = p) ∧
    (pyTruthyOpt validation_error = false → pyTruthyOpt parse_error = false →
      (handle_error validation_error parse_error).error_message =
        "Unknown error occurred") := by
  refine ⟨rfl, rfl, rfl, rfl, rfl, rfl, rfl, rfl, ?_, ?_, ?_⟩
  · intro v hv hne
    subst hv
    simp [handle_error, pyOrStr, hne]
  · intro hvf p hp hne
    subst hp
    cases validation_error with
    | none => simp [handle_error, pyOrStr, hne]
    | some v =>
      simp [pyTruthyOpt] at hvf
      simp [handle_error, pyOrStr, hvf, hne]
  · intro hvf hpf
    cases validation_error with
    | none =>
      cases parse_error with
      | none => rfl
      | some p =>
        simp [pyTruthyOpt] at hpf
        simp [handle_error, pyOrStr, hpf]
    | some v =>
      simp [pyTruthyOpt] at hvf
      cases parse_error with
      | none => simp [handle_error, pyOrStr, hvf]
      | some p =>
        simp [pyTruthyOpt] at hpf
        simp [handle_error, pyOrStr, hvf, hpf]

theorem c2_error_output_shape_witness :
    (handle_error (some "boom") (some "later")).error_message = "boom" ∧
    (handle_error none (some "parse failed")).error_message = "parse failed" ∧
    (handle_error none none).error_message = "Unknown error occurred" := by
  refine ⟨?_, ?_, ?_⟩
  · exact (c2_error_output_shape (some "boom") (some "later")).2.2.2.2.2.2.2.2.1
      "boom" rfl (by decide)
  · exact (c2_error_output_shape none (some "parse failed")).2.2.2.2.2.2.2.2.2.1
      (by decide) "parse failed" rfl (by decide)
  · exact (c2_error_output_shape none none).2.2.2.2.2.2.2.2.2.2
      (by decide) (by decide)

/-- C1: delivery never fails the pipeline.  Without a channel the tool
is not called and `{sent: false, reason: "no_channel"}` is recorded;
with a channel a raised tool error is absorbed into
`{sent: false, reason: <message>}`; and whenever the pipeline reaches
delivery it proceeds to `compile-final-output` regardless of the tool
outcome. -/
theorem c1_delivery_never_fails :
    (∀ ch tool, pyTruthyOpt ch = false →
       post_to_slack ch tool =
         ({ sent := false, reason := some "no_channel", result := none }, false)) ∧
    (∀ ch tool e, pyTruthyOpt ch = true → tool = .error e →
       post_to_slack ch tool =
         ({ sent := false, reason := some e, result := none }, true)) ∧
    (∀ inp st raw notes tool,
       validate_input inp = .ok st →
       parse_and_validate_output raw = .ok notes →
       runPipeline inp (.ok raw) tool =
         (.success (compile_final_output notes (post_to_slack st.slack_channel tool).1), 1)) := by
  refine ⟨?_, ?_, ?_⟩
  · intro ch tool h
    unfold post_to_slack
    rw [h]
    simp
  · intro ch tool e h he
    subst he
    unfold post_to_slack
    rw [h]
    simp
  · intro inp st raw notes tool hv hp
    unfold runPipeline
    rw [hv]
    dsimp only
    rw [hp]

theorem c1_delivery_never_fails_witness :
    runPipeline
      ⟨some "This is a sufficiently long meeting transcript for validation.",
       none, none, some "C123", none⟩
      (.ok "\x7b\"summary\": \"ok\"\x7d") (.error "connection refused") =
      (.success ⟨"ok", [], [], [], [], [], false⟩, 1) := by
  have h := c1_delivery_never_fails
  rw [h.2.2
    ⟨some "This is a sufficiently long meeting transcript for validation.",
     none, none, some "C123", none⟩
    ⟨"This is a sufficiently long meeting transcript for validation.",
     "Untitled Meeting", "Unknown Date", some "C123", "anthropic"⟩
    "\x7b\"summary\": \"ok\"\x7d"
    ⟨"ok", [], [], [], [], [], false⟩
    (.error "connection refused") rfl rfl]
  rfl

/-- C7: a transcript whose trimmed length is below 50 characters
(including absent, empty or whitespace-only input) is rejected by
`validate_input` — with the empty-input error when the trim is empty and
the too-short error otherwise — and the pipeline makes no LLM
extraction call, routing straight to `handle-error`. -/
theorem c7_short_transcript_rejected (inp : PipelineInput)
    (llm tool : Except String String)
    (h : (pyStripS (inp.transcript.getD "")).length < 50) :
    (pyStripS (inp.transcript.getD "") = "" →
       validate_input inp = .error .emptyInput) ∧
    (pyStripS (inp.transcript.getD "") ≠ "" →
       validate_input inp =
         .error (.tooShort (pyStripS (inp.transcript.getD "")).length)) ∧
    (∃ e, validate_input inp = .error e) ∧
    (runPipeline inp llm tool).2 = 0 ∧
    (∃ out, (runPipeline inp llm tool).1 = .failure out) := by
  have hfail : ∃ e, validate_input inp = .error e ∧
      (pyStripS (inp.transcript.getD "") = "" → e = .emptyInput) ∧
      (pyStripS (inp.transcript.getD "") ≠ "" →
        e = .tooShort (pyStripS (inp.transcript.getD "")).length) := by
    unfold validate_input
    by_cases hc : inp.transcript.getD "" = "" ∨ pyStripS (inp.transcript.getD "") = ""
    · rw [if_pos hc]
      refine ⟨.emptyInput, rfl, fun _ => rfl, fun hne => ?_⟩
      exfalso
      rcases hc with hc | hc
      · exact hne (by rw [hc]; rfl)
      · exact hne hc
    · rw [if_neg hc]
      rw [if_pos h]
      refine ⟨_, rfl, fun hemp => absurd (Or.inr hemp) hc, fun _ => rfl⟩
  obtain ⟨e, he, hemp, hshort⟩ := hfail
  refine ⟨?_, ?_, ⟨e, he⟩, ?_, ?_⟩
  · intro hx
    rw [he, hemp hx]
  · intro hx
    rw [he, hshort hx]
  · unfold runPipeline
    rw [he]
  · unfold runPipeline
    rw [he]
    exact ⟨_, rfl⟩

theorem c7_short_transcript_rejected_witness :
    validate_input ⟨some "short", none, none, none, none⟩ =
      .error (.tooShort 5) ∧
    (runPipeline ⟨some "short", none, none, none, none⟩ (.ok "") (.ok "")).2 = 0 := by
  have h := c7_short_transcript_rejected ⟨some "short", none, none, none, none⟩
    (.ok "") (.ok "") (by decide)
  exact ⟨h.2.1 (by decide), h.2.2.2.1⟩

/-- C8: the provider alias is looked up case-insensitively in the fixed
registry (aliases equal up to lowercasing resolve identically); an
unknown alias does not fail normalization but resolves to the default
`"anthropic"`; and a valid transcript normalizes successfully whatever
the alias is. -/
theorem c8_provider_fallback :
    (∀ p q : String, pyLowerS p = pyLowerS q →
       resolveProvider (some p) = resolveProvider (some q)) ∧
    (∀ p : Option String,
       registryKeys.contains (pyLowerS (pyOrStr p "anthropic")) = false →
       resolveProvider p = "anthropic") ∧
    (∀ inp : PipelineInput,
       50 ≤ (pyStripS (inp.transcript.getD "")).length →
       ∃ st, validate_input inp = .ok st ∧
         st.llm_provider = resolveProvider inp.llm_provider) := by
  refine ⟨?_, ?_, ?_⟩
  · intro p q hpq
    by_cases hp : p = ""
    · have hq : q = "" := by
        subst hp
        have : q.data.map pyLower = [] := by
          have := congrArg String.data hpq
          simpa [pyLowerS] using this.symm
        have hqd : q.data = [] := List.map_eq_nil_iff.mp this
        cases q
        simp at hqd
        simp [hqd]
      subst hp; subst hq
      rfl
    · have hq : q ≠ "" := by
        intro hq0
        subst hq0
        have : p.data.map pyLower = [] := by
          have := congrArg String.data hpq
          simpa [pyLowerS] using this
        have hpd : p.data = [] := List.map_eq_nil_iff.mp this
        apply hp
        cases p
        simp at hpd
        simp [hpd]
      have e1 : pyOrStr (some p) "anthropic" = p := by simp [pyOrStr, hp]
      have e2 : pyOrStr (some q) "anthropic" = q := by simp [pyOrStr, hq]
      unfold resolveProvider
      rw [e1, e2, hpq]
  · intro p hmiss
    unfold resolveProvider
    rw [hmiss]
    simp
  · intro inp h
    unfold validate_input
    have hne : ¬(inp.transcript.getD "" = "" ∨ pyStripS (inp.transcript.getD "") = "") := by
      intro hc
      rcases hc with hc | hc
      · rw [hc] at h
        simp [pyStripS, pyStrip] at h
      · rw [hc] at h
        simp at h
    rw [if_neg hne, if_neg (by omega)]
    exact ⟨_, rfl, rfl⟩

theorem c8_provider_fallback_witness :
    resolveProvider (some "GEMINI") = resolveProvider (some "gemini") ∧
    resolveProvider (some "openai") = "anthropic" ∧
    (∃ st, validate_input
        ⟨some "This is a sufficiently long meeting transcript for validation.",
         none, none, none, some "SomeUnknownProvider"⟩ = .ok st ∧
       st.llm_provider =
         resolveProvider (some "SomeUnknownProvider")) := by
  have h := c8_provider_fallback
  refine ⟨h.1 "GEMINI" "gemini" (by decide), h.2.1 (some "openai") (by decide),
    h.2.2 _ (by decide)⟩

/-- C10: after fence-stripping, `_extract_json` raises the no-JSON-found
error exactly when `{` or `}` is absent from the cleaned text; when both
occur but the last `}` precedes the first `{`, the empty slice is handed
to `json.loads` and the failure is a malformed-JSON parse error
instead. -/
theorem c10_brace_errors (raw : String) :
    (∀ s e, firstIdxOf '\x7b' (cleanOf raw) = some s →
       lastIdxOf '\x7d' (cleanOf raw) = some e → e < s →
       _extract_json raw = .error .malformedJson) ∧
    (_extract_json raw = .error .noJsonFound ↔
       ('\x7b' ∉ cleanOf raw ∨ '\x7d' ∉ cleanOf raw)) := by
  constructor
  · intro s e hs he hlt
    unfold _extract_json
    rw [hs, he]
    dsimp only
    have hz : e + 1 - s = 0 := by omega
    rw [hz, List.take_zero]
    rfl
  · constructor
    · intro hex
      by_contra hcon
      push_neg at hcon
      obtain ⟨h1, h2⟩ := hcon
      have hs : ∃ s, firstIdxOf '\x7b' (cleanOf raw) = some s := by
        unfold firstIdxOf
        cases hfi : List.findIdx? (fun x => x = '\x7b') (cleanOf raw) with
        | none =>
          exfalso
          have := List.findIdx?_eq_none_iff.mp hfi
          exact (by simpa using this '\x7b' h1)
        | some s => exact ⟨s, rfl⟩
      have he : ∃ e, lastIdxOf '\x7d' (cleanOf raw) = some e := by
        unfold lastIdxOf
        cases hfi : List.findIdx? (fun x => x = '\x7d') (cleanOf raw).reverse with
        | none =>
          exfalso
          have := List.findIdx?_eq_none_iff.mp hfi
          exact (by simpa using this '\x7d' (List.mem_reverse.mpr h2))
        | some e => exact ⟨_, rfl⟩
      obtain ⟨s, hs⟩ := hs
      obtain ⟨e, he⟩ := he
      unfold _extract_json at hex
      rw [hs, he] at hex
      dsimp only at hex
      cases hjl : jsonLoads ((List.take (e + 1 - s) (List.drop s (cleanOf raw)))) with
      | none => rw [hjl] at hex; cases hex
      | some v => rw [hjl] at hex; cases hex
    · intro hmiss
      unfold _extract_json
      rcases hmiss with hm | hm
      · have hnone : List.findIdx? (fun x => x = '\x7b') (cleanOf raw) = none := by
          apply List.findIdx?_eq_none_iff.mpr
          intro x hx
          simp
          intro hxe
          exact absurd (hxe ▸ hx) hm
        rw [show firstIdxOf '\x7b' (cleanOf raw) = none from hnone]
      · have hnone : List.findIdx? (fun x => x = '\x7d') (cleanOf raw).reverse = none := by
          apply List.findIdx?_eq_none_iff.mpr
          intro x hx
          simp
          intro hxe
          exact absurd (hxe ▸ (List.mem_reverse.mp hx)) hm
        have : lastIdxOf '\x7d' (cleanOf raw) = none := by
          unfold lastIdxOf
          rw [hnone]
          rfl
        rw [this]
        cases firstIdxOf '\x7b' (cleanOf raw) <;> rfl

theorem c10_brace_errors_witness :
    _extract_json "\x7d\x7b" = .error .malformedJson ∧
    _extract_json "no braces" = .error .noJsonFound := by
  refine ⟨(c10_brace_errors "\x7d\x7b").1 1 0 rfl rfl (by decide),
    (c10_brace_errors "no braces").2.mpr (Or.inl (by decide))⟩

/-- C3: JSON extraction is idempotent under fence-wrapping — if the bare
text extracts to a JSON object, the fence-wrapped form
`"```json\n" + j + "\n```"` extracts to the same object. -/
theorem c3_fence_wrap_idempotent (raw : String) (v : Json)
    (h : _extract_json raw = .ok v) :
    _extract_json ("```json\n" ++ raw ++ "\n```") = .ok v := by
  rw [extract_json_fence_wrap_eq, h]

theorem c3_fence_wrap_idempotent_witness :
    _extract_json ("```json\n" ++ "\x7b\"summary\": \"ok\"\x7d" ++ "\n```") =
      .ok (.jobj [("summary", .jstr "ok")]) :=
  c3_fence_wrap_idempotent "\x7b\"summary\": \"ok\"\x7d" (.jobj [("summary", .jstr "ok")]) rfl

/-! ## Schema-validation inversion helpers (claims C4 and C5) -/

theorem validateActionItem_error_of_bad_priority (ikvs : List (String × Json))
    (p : String) (hpr : objGet ikvs "priority" = some (.jstr p))
    (hbad : ¬(p = "high" ∨ p = "medium" ∨ p = "low")) :
    ∃ e, validateActionItem (.jobj ikvs) = .error e := by
  unfold validateActionItem
  dsimp only
  cases h1 : objGet ikvs "task" with
  | none => exact ⟨_, rfl⟩
  | some j1 =>
    cases j1 with
    | jstr task =>
      cases h2 : objGet ikvs "owner" with
      | none => exact ⟨_, rfl⟩
      | some j2 =>
        cases j2 with
        | jstr owner =>
          rw [hpr]
          cases h3 : objGet ikvs "due" with
          | none =>
            dsimp only
            rw [if_neg hbad]
            exact ⟨_, rfl⟩
          | some j3 =>
            cases j3 with
            | jstr d =>
              dsimp only
              rw [if_neg hbad]
              exact ⟨_, rfl⟩
            | null => exact ⟨_, rfl⟩
            | jbool b => exact ⟨_, rfl⟩
            | jnum n => exact ⟨_, rfl⟩
            | jarr xs => exact ⟨_, rfl⟩
            | jobj ys => exact ⟨_, rfl⟩
        | null => exact ⟨_, rfl⟩
        | jbool b => exact ⟨_, rfl⟩
        | jnum n => exact ⟨_, rfl⟩
        | jarr xs => exact ⟨_, rfl⟩
        | jobj ys => exact ⟨_, rfl⟩
    | null => exact ⟨_, rfl⟩
    | jbool b => exact ⟨_, rfl⟩
    | jnum n => exact ⟨_, rfl⟩
    | jarr xs => exact ⟨_, rfl⟩
    | jobj ys => exact ⟨_, rfl⟩

theorem validateActionItem_defaults (ikvs : List (String × Json)) (ai : ActionItem)
    (h : validateActionItem (.jobj ikvs) = .ok ai) :
    (objGet ikvs "due" = none → ai.due = "TBD") ∧
    (objGet ikvs "priority" = none → ai.priority = "medium") := by
  unfold validateActionItem at h
  dsimp only at h
  cases h1 : objGet ikvs "task" with
  | none => rw [h1] at h; cases h
  | some j1 =>
    rw [h1] at h
    cases j1 with
    | jstr task =>
      cases h2 : objGet ikvs "owner" with
      | none => rw [h2] at h; cases h
      | some j2 =>
        rw [h2] at h
        cases j2 with
        | jstr owner =>
          dsimp only at h
          constructor
          · intro h3
            rw [h3] at h
            cases h4 : objGet ikvs "priority" with
            | none =>
              rw [h4] at h
              cases h
              rfl
            | some j4 =>
              rw [h4] at h
              cases j4 with
              | jstr p =>
                dsimp only at h
                by_cases hp : p = "high" ∨ p = "medium" ∨ p = "low"
                · rw [if_pos hp] at h
                  cases h
                  rfl
                · rw [if_neg hp] at h
                  cases h
              | null => cases h
              | jbool b => cases h
              | jnum n => cases h
              | jarr xs => cases h
              | jobj ys => cases h
          · intro h4
            rw [h4] at h
            cases h3 : objGet ikvs "due" with
            | none =>
              rw [h3] at h
              cases h
              rfl
            | some j3 =>
              rw [h3] at h
              cases j3 with
              | jstr d =>
                dsimp only at h
                cases h
                rfl
              | null => cases h
              | jbool b => cases h
              | jnum n => cases h
              | jarr xs => cases h
              | jobj ys => cases h
        | null => cases h
        | jbool b => cases h
        | jnum n => cases h
        | jarr xs => cases h
        | jobj ys => cases h
    | null => cases h
    | jbool b => cases h
    | jnum n => cases h
    | jarr xs => cases h
    | jobj ys => cases h

theorem validateNotes_ok_parts (kvs : List (String × Json))
    (notes : MeetingNotesOutput) (h : validateNotes (.jobj kvs) = .ok notes) :
    (objGet kvs "attendees" = none → notes.attendees = []) ∧
    (objGet kvs "decisions" = none → notes.decisions = []) ∧
    (objGet kvs "action_items" = none → notes.action_items = []) ∧
    (objGet kvs "blockers" = none → notes.blockers = []) ∧
    (objGet kvs "follow_ups" = none → notes.follow_ups = []) ∧
    (∀ items, objGet kvs "action_items" = some (.jarr items) →
       mapExcept validateActionItem items = .ok notes.action_items) := by
  unfold validateNotes at h
  dsimp only at h
  obtain ⟨s, hs, h⟩ := except_bind_ok _ _ _ h
  obtain ⟨att, hatt, h⟩ := except_bind_ok _ _ _ h
  obtain ⟨dec, hdec, h⟩ := except_bind_ok _ _ _ h
  obtain ⟨ai, hai, h⟩ := except_bind_ok _ _ _ h
  obtain ⟨blk, hblk, h⟩ := except_bind_ok _ _ _ h
  obtain ⟨fu, hfu, h⟩ := except_bind_ok _ _ _ h
  obtain ⟨sms, hsms, h⟩ := except_bind_ok _ _ _ h
  cases h
  refine ⟨?_, ?_, ?_, ?_, ?_, ?_⟩
  · intro h0
    have : optStrList kvs "attendees" = .ok [] := by unfold optStrList; rw [h0]
    rw [this] at hatt
    cases hatt
    rfl
  · intro h0
    have : optStrList kvs "decisions" = .ok [] := by unfold optStrList; rw [h0]
    rw [this] at hdec
    cases hdec
    rfl
  · intro h0
    rw [h0] at hai
    cases hai
    rfl
  · intro h0
    have : optStrList kvs "blockers" = .ok [] := by unfold optStrList; rw [h0]
    rw [this] at hblk
    cases hblk
    rfl
  · intro h0
    have : optStrList kvs "follow_ups" = .ok [] := by unfold optStrList; rw [h0]
    rw [this] at hfu
    cases hfu
    rfl
  · intro items h0
    rw [h0] at hai
    dsimp only at hai
    exact hai

theorem parse_ok_validateNotes (raw : String) (kvs : List (String × Json))
    (notes : MeetingNotesOutput) (hex : _extract_json raw = .ok (.jobj kvs))
    (hok : parse_and_validate_output raw = .ok notes) :
    validateNotes (.jobj kvs) = .ok notes := by
  unfold parse_and_validate_output at hok
  rw [hex] at hok
  dsimp only at hok
  cases hval : validateNotes (.jobj kvs) with
  | error m => rw [hval] at hok; cases hok
  | ok n =>
    rw [hval] at hok
    cases hok
    rfl

/-- C4: an extracted action item whose `priority` lies outside
{high, medium, low} makes `parse_and_validate_output` fail with a
schema-validation error; the out-of-enum value is never coerced. -/
theorem c4_priority_enum_rejected (raw : String) (kvs : List (String × Json))
    (items : List Json) (ikvs : List (String × Json)) (p : String)
    (hex : _extract_json raw = .ok (.jobj kvs))
    (hitems : objGet kvs "action_items" = some (.jarr items))
    (hmem : Json.jobj ikvs ∈ items)
    (hpr : objGet ikvs "priority" = some (.jstr p))
    (hbad : ¬(p = "high" ∨ p = "medium" ∨ p = "low")) :
    ∃ msg, parse_and_validate_output raw = .error msg := by
  cases h : parse_and_validate_output raw with
  | error m => exact ⟨m, rfl⟩
  | ok notes =>
    exfalso
    have hval := parse_ok_validateNotes raw kvs notes hex h
    have parts := validateNotes_ok_parts kvs notes hval
    have hmap := parts.2.2.2.2.2 items hitems
    obtain ⟨i, hi⟩ := List.get?_of_mem hmem
    obtain ⟨y, hy, hfy⟩ := mapExcept_ok_get _ _ _ hmap i _ hi
    obtain ⟨e, hee⟩ := validateActionItem_error_of_bad_priority ikvs p hpr hbad
    rw [hee] at hfy
    cases hfy

theorem c4_priority_enum_rejected_witness :
    ∃ msg, parse_and_validate_output
      "\x7b\"summary\": \"ok\", \"action_items\": [\x7b\"task\": \"t\", \"owner\": \"o\", \"priority\": \"urgent\"\x7d]\x7d"
      = .error msg :=
  c4_priority_enum_rejected _
    [("summary", .jstr "ok"),
     ("action_items", .jarr [.jobj [("task", .jstr "t"), ("owner", .jstr "o"),
       ("priority", .jstr "urgent")]])]
    [.jobj [("task", .jstr "t"), ("owner", .jstr "o"), ("priority", .jstr "urgent")]]
    [("task", .jstr "t"), ("owner", .jstr "o"), ("priority", .jstr "urgent")]
    "urgent" rfl rfl (List.mem_singleton.mpr rfl) rfl (by decide)

/-- C5: on every successful parse the schema defaults are applied:
absent optional arrays become empty, an action item without `due` gets
`"TBD"`, and one without `priority` gets `"medium"`. -/
theorem c5_defaults_applied (raw : String) (kvs : List (String × Json))
    (notes : MeetingNotesOutput)
    (hex : _extract_json raw = .ok (.jobj kvs))
    (hok : parse_and_validate_output raw = .ok notes) :
    (objGet kvs "attendees" = none → notes.attendees = []) ∧
    (objGet kvs "decisions" = none → notes.decisions = []) ∧
    (objGet kvs "action_items" = none → notes.action_items = []) ∧
    (objGet kvs "blockers" = none → notes.blockers = []) ∧
    (objGet kvs "follow_ups" = none → notes.follow_ups = []) ∧
    (∀ items, objGet kvs "action_items" = some (.jarr items) →
       items.length = notes.action_items.length ∧
       ∀ i ikvs, items.get? i = some (.jobj ikvs) →
         ∃ ai, notes.action_items.get? i = some ai ∧
           (objGet ikvs "due" = none → ai.due = "TBD") ∧
           (objGet ikvs "priority" = none → ai.priority = "medium")) := by
  have hval := parse_ok_validateNotes raw kvs notes hex hok
  have parts := validateNotes_ok_parts kvs notes hval
  refine ⟨parts.1, parts.2.1, parts.2.2.1, parts.2.2.2.1, parts.2.2.2.2.1, ?_⟩
  intro items h0
  have hmap := parts.2.2.2.2.2 items h0
  refine ⟨mapExcept_ok_length _ _ _ hmap, ?_⟩
  intro i ikvs hi
  obtain ⟨y, hy, hfy⟩ := mapExcept_ok_get _ _ _ hmap i _ hi
  obtain ⟨hdef1, hdef2⟩ := validateActionItem_defaults ikvs y hfy
  exact ⟨y, hy, hdef1, hdef2⟩

theorem c5_defaults_applied_witness :
    ∃ ai, (MeetingNotesOutput.action_items
        (match parse_and_validate_output
          "\x7b\"summary\": \"ok\", \"action_items\": [\x7b\"task\": \"t\", \"owner\": \"o\"\x7d]\x7d" with
         | .ok n => n
         | .error _ => ⟨"", [], [], [], [], [], false⟩)).get? 0 = some ai ∧
      ai.due = "TBD" ∧ ai.priority = "medium" := by
  have h := c5_defaults_applied
    "\x7b\"summary\": \"ok\", \"action_items\": [\x7b\"task\": \"t\", \"owner\": \"o\"\x7d]\x7d"
    [("summary", .jstr "ok"),
     ("action_items", .jarr [.jobj [("task", .jstr "t"), ("owner", .jstr "o")]])]
    ⟨"ok", [], [], [⟨"t", "o", "TBD", "medium"⟩], [], [], false⟩
    rfl rfl
  obtain ⟨ai, hai, hd, hp⟩ := h.2.2.2.2.2
    [.jobj [("task", .jstr "t"), ("owner", .jstr "o")]] rfl |>.2 0
    [("task", .jstr "t"), ("owner", .jstr "o")] rfl
  exact ⟨ai, hai, hd rfl, hp rfl⟩

/-! ## Delivery formatter presence checks (claim C6) -/

/-- A block is "the section for" a category when it is a `section`
block whose text starts with that category's fixed marker. -/
def isSectionWithMarker (marker : String) : Block → Bool
  | .sec t => List.isPrefixOf marker.data t.data
  | _ => false

/-- The rendered sequence contains a section starting with `marker`. -/
def hasSection (marker : String) (bs : List Block) : Bool :=
  bs.any (isSectionWithMarker marker)

theorem isPre_false_1 {c d : Char} (ms ts : List Char) (h : c ≠ d) :
    List.isPrefixOf (c :: ms) (d :: ts) = false := by
  simp [List.isPrefixOf_cons₂]
  intro he
  exact absurd he h

theorem isPre_false_2 {c1 c2 d1 d2 : Char} (ms ts : List Char) (h : c2 ≠ d2) :
    List.isPrefixOf (c1 :: c2 :: ms) (d1 :: d2 :: ts) = false := by
  simp [List.isPrefixOf_cons₂]
  intro _ he
  exact absurd he h

theorem isPre_true_ext (m r : List Char) : List.isPrefixOf m (m ++ r) = true := by
  rw [List.isPrefixOf_iff_prefix]
  exact ⟨r, rfl⟩

theorem any_ite (c : Prop) [Decidable c] (A B : List Block) (f : Block → Bool) :
    (if c then A else B).any f = if c then A.any f else B.any f := by
  split <;> rfl

theorem inter_one (x : String) : String.intercalate "  |  " [x] = x := rfl

theorem inter_two (x y : String) :
    String.intercalate "  |  " [x, y] = x ++ "  |  " ++ y := rfl

theorem iswm_divider (m : String) : isSectionWithMarker m Block.divider = false := rfl

theorem iswm_header (m t : String) : isSectionWithMarker m (Block.header t) = false := rfl

theorem iswm_context (m t : String) : isSectionWithMarker m (Block.context t) = false := rfl

theorem iswm_sec (m t : String) : isSectionWithMarker m (Block.sec t) =
    List.isPrefixOf m.data t.data := rfl

/-- No action-item block can be mistaken for a category section: its
text starts with a priority emoji, never with `*`. -/
theorem iswm_actionItem (m : String) (mt : List Char) (hm : m.data = '*' :: mt)
    (it : ActionItem) : isSectionWithMarker m (actionItemBlock it) = false := by
  unfold actionItemBlock priority_emoji
  rw [iswm_sec, hm]
  by_cases h1 : it.priority = "high"
  · simp only [h1, if_pos]
    exact isPre_false_1 _ _ (by decide)
  · rw [if_neg h1]
    by_cases h2 : it.priority = "medium"
    · rw [if_pos h2]
      exact isPre_false_1 _ _ (by decide)
    · rw [if_neg h2]
      by_cases h3 : it.priority = "low"
      · rw [if_pos h3]
        exact isPre_false_1 _ _ (by decide)
      · rw [if_neg h3]
        exact isPre_false_1 _ _ (by decide)

/-- C6: in the rendered block sequence, the decisions, action-items,
blockers, and follow-ups sections are present exactly when the
corresponding report list is non-empty, while the header block and the
summary section are always present. -/
theorem c6_blocks_iff_nonempty (notes : MeetingNotesOutput)
    (meeting_name meeting_date : String) :
    hasSection "*✅ Key Decisions*"
        (_build_slack_blocks notes meeting_name meeting_date)
      = !notes.decisions.isEmpty ∧
    hasSection "*⚡ Action Items*"
        (_build_slack_blocks notes meeting_name meeting_date)
      = !notes.action_items.isEmpty ∧
    hasSection "*🚧 Blockers*"
        (_build_slack_blocks notes meeting_name meeting_date)
      = !notes.blockers.isEmpty ∧
    hasSection "*🔁 Follow-ups*"
        (_build_slack_blocks notes meeting_name meeting_date)
      = !notes.follow_ups.isEmpty ∧
    (∃ t, Block.header t ∈ _build_slack_blocks notes meeting_name meeting_date) ∧
    hasSection "*📋 Summary*"
        (_build_slack_blocks notes meeting_name meeting_date) = true := by
  refine ⟨?_, ?_, ?_, ?_, ?_, ?_⟩
  · unfold _build_slack_blocks hasSection
    dsimp only
    by_cases hd : meeting_date ≠ "" ∧ meeting_date ≠ "Unknown Date" <;>
    by_cases ha : notes.attendees ≠ [] <;>
    by_cases hx : notes.decisions = [] <;>
    simp +decide [hd, ha, hx, any_ite, iswm_divider, iswm_header, iswm_context,
      iswm_sec, iswm_actionItem "*✅ Key Decisions*" _ rfl,
      inter_one, inter_two, isPre_false_1, List.any_map, Function.comp]
  · unfold _build_slack_blocks hasSection
    dsimp only
    by_cases hd : meeting_date ≠ "" ∧ meeting_date ≠ "Unknown Date" <;>
    by_cases ha : notes.attendees ≠ [] <;>
    by_cases hx : notes.action_items = [] <;>
    simp +decide [hd, ha, hx, any_ite, iswm_divider, iswm_header, iswm_context,
      iswm_sec, iswm_actionItem "*⚡ Action Items*" _ rfl,
      inter_one, inter_two, isPre_false_1, List.any_map, Function.comp]
  · unfold _build_slack_blocks hasSection
    dsimp only
    by_cases hd : meeting_date ≠ "" ∧ meeting_date ≠ "Unknown Date" <;>
    by_cases ha : notes.attendees ≠ [] <;>
    by_cases hx : notes.blockers = [] <;>
    simp +decide [hd, ha, hx, any_ite, iswm_divider, iswm_header, iswm_context,
      iswm_sec, iswm_actionItem "*🚧 Blockers*" _ rfl,
      inter_one, inter_two, isPre_false_1, List.any_map, Function.comp]
  · unfold _build_slack_blocks hasSection
    dsimp only
    by_cases hd : meeting_date ≠ "" ∧ meeting_date ≠ "Unknown Date" <;>
    by_cases ha : notes.attendees ≠ [] <;>
    by_cases hx : notes.follow_ups = [] <;>
    simp +decide [hd, ha, hx, any_ite, iswm_divider, iswm_header, iswm_context,
      iswm_sec, iswm_actionItem "*🔁 Follow-ups*" _ rfl,
      inter_one, inter_two, isPre_false_1, List.any_map, Function.comp]
  · refine ⟨"🐝 " ++ meeting_name, ?_⟩
    unfold _build_slack_blocks
    dsimp only
    simp
  · unfold _build_slack_blocks hasSection
    dsimp only
    by_cases hd : meeting_date ≠ "" ∧ meeting_date ≠ "Unknown Date" <;>
    by_cases ha : notes.attendees ≠ [] <;>
    simp +decide [hd, ha, any_ite, iswm_divider, iswm_header, iswm_context,
      iswm_sec, iswm_actionItem "*📋 Summary*" _ rfl,
      inter_one, inter_two, isPre_false_1, List.any_map, Function.comp]

end MeetingNotes
